import Mathlib

/-!
Verification of the command-interpretation core of `safe-cli`
(`src/safe_cli/prompt_parser.py`): the address validator
`check_ethereum_address`, the error-translating decorator `safe_exception`,
and the argparse-backed command registry built by `get_prompt_parser`.

The Python code is shallowly embedded: exceptions become an inductive
taxonomy, the decorator becomes a function from a handler outcome to a
wrapper outcome, and argparse's positional-argument consumption becomes an
explicit recursive token walk over the registry's argument specifications.
Python exception payloads (`e.args`) are modelled as lists of strings,
matching their use in the source, where each payload element is only ever
interpolated into an f-string.
-/

namespace SafeCli

/-- Modelled from the spec: the exception classes imported from
`safe_cli.safe_operator` and `safe_cli.api.base_api` are declared outside the
provided source file; per §7 of the spec they form a closed, disjoint set of
domain-failure kinds. `otherExc` stands for any exception class outside that
closed set (carrying the class name). Note `NotEnoughEtherToSend` and
`NotEnoughTokenToSend` are two distinct classes that both realise the single
spec-level `InsufficientBalance` kind. -/
inductive PyExcKind where
  | baseAPI
  | notEnoughSignatures
  | senderRequired
  | existingOwner
  | nonExistingOwner
  | thresholdLimit
  | sameFallbackHandler
  | fallbackHandlerNotSupported
  | sameMasterCopy
  | invalidMasterCopy
  | safeAlreadyUpdated
  | notEnoughEtherToSend
  | notEnoughTokenToSend
  | otherExc (className : String)
deriving DecidableEq, Repr

/-- A raised Python exception: its class together with its `args` tuple.
Payload elements are modelled as the strings they render to inside the
f-strings of `safe_exception`. -/
structure PyExc where
  kind : PyExcKind
  args : List String
deriving DecidableEq, Repr

/-- Observable outcome of one invocation of a handler wrapped by
`safe_exception`:
* `returned out` — the wrapper returns normally after printing the lines
  `out` (in order) via `print_formatted_text`;
* `propagated e` — the exception `e` was not matched by any `except` clause
  and escapes to the caller unchanged;
* `wrapperFailed` — an `except` clause matched but its body evaluated
  `e.args[0]` on an empty `args` tuple, so the wrapper itself raises
  `IndexError` (the f-string is evaluated before anything is printed, hence
  no output). -/
inductive WrapperOutcome where
  | returned (output : List String)
  | propagated (e : PyExc)
  | wrapperFailed
deriving DecidableEq, Repr

/-- Result of calling the unwrapped handler body: `none` when the operator
call completes, `some e` when it raises `e`. -/
def HandlerResult := Option PyExc

/-- Embedding of the `safe_exception` decorator of
`src/safe_cli/prompt_parser.py` lines 30–65: given the outcome of the
wrapped body, produce the wrapper's observable outcome. Each branch mirrors
one `except` clause, in source order; adjacent string literals in the source
are concatenated exactly as Python does. -/
def safeExceptionRun (r : Option PyExc) : WrapperOutcome :=
  match r with
  | none => .returned []
  | some e =>
    match e.kind with
    | .baseAPI =>
      match e.args with
      | [] => .returned []
      | a :: _ => .returned ["<b><ansired>" ++ a ++ "</ansired></b>"]
    | .notEnoughSignatures =>
      match e.args with
      | [] => .wrapperFailed
      | a :: _ =>
        .returned ["<ansired>Cannot find enough owners to sign. " ++ a ++ " missing</ansired>"]
    | .senderRequired => .returned ["<ansired>Please load a default sender</ansired>"]
    | .existingOwner =>
      match e.args with
      | [] => .wrapperFailed
      | a :: _ => .returned ["<ansired>Owner " ++ a ++ " is already an owner of the Safe</ansired>"]
    | .nonExistingOwner =>
      match e.args with
      | [] => .wrapperFailed
      | a :: _ => .returned ["<ansired>Owner " ++ a ++ " is not an owner of the Safe</ansired>"]
    | .thresholdLimit =>
      .returned ["<ansired>Having less owners than threshold is not allowed</ansired>"]
    | .sameFallbackHandler =>
      match e.args with
      | [] => .wrapperFailed
      | a :: _ => .returned ["<ansired>Fallback handler " ++ a ++ " is the current one</ansired>"]
    | .fallbackHandlerNotSupported =>
      .returned ["<ansired>Fallback handler is not supported for your Safe, you need to <b>update</b> first</ansired>"]
    | .sameMasterCopy =>
      match e.args with
      | [] => .wrapperFailed
      | a :: _ => .returned ["<ansired>Master Copy " ++ a ++ " is the current one</ansired>"]
    | .invalidMasterCopy =>
      match e.args with
      | [] => .wrapperFailed
      | a :: _ => .returned ["<ansired>Master Copy " ++ a ++ " is not valid</ansired>"]
    | .safeAlreadyUpdated => .returned ["<ansired>Safe is already updated</ansired>"]
    | .notEnoughEtherToSend =>
      match e.args with
      | [] => .wrapperFailed
      | a :: _ =>
        .returned ["<ansired>Cannot find enough to send. Current balance is " ++ a ++ "</ansired>"]
    | .notEnoughTokenToSend =>
      match e.args with
      | [] => .wrapperFailed
      | a :: _ =>
        .returned ["<ansired>Cannot find enough to send. Current balance is " ++ a ++ "</ansired>"]
    | .otherExc _ => .propagated e

/-!
## Keccak-256

`check_ethereum_address` delegates to `Web3.isChecksumAddress`, which checks
the EIP-55 mixed-case checksum: the keccak-256 hash of the lowercase hex
body of the address decides the case of each hex letter. The permutation is
embedded below over `Nat`, with lanes kept below `2 ^ 64`.
-/

/-- Left-rotation of a 64-bit lane (`v < 2 ^ 64`, `n ≤ 63`). -/
def rotl64 (v n : Nat) : Nat :=
  ((v <<< n) ||| (v >>> (64 - n))) % 18446744073709551616

/-- The 24 keccak round constants. -/
def keccakRC : List Nat :=
  [0x1,
   0x8082,
   0x800000000000808a,
   0x8000000080008000,
   0x808b,
   0x80000001,
   0x8000000080008081,
   0x8000000000008009,
   0x8a,
   0x88,
   0x80008009,
   0x8000000a,
   0x8000808b,
   0x800000000000008b,
   0x8000000000008089,
   0x8000000000008003,
   0x8000000000008002,
   0x8000000000000080,
   0x800a,
   0x800000008000000a,
   0x8000000080008081,
   0x8000000000008080,
   0x80000001,
   0x8000000080008008]

/-- Rho-step rotation offsets for the row `y = 0`. -/
def rhoRow0 : List Nat := [0, 1, 62, 28, 27]

/-- Rho-step rotation offsets for the row `y = 1`. -/
def rhoRow1 : List Nat := [36, 44, 6, 55, 20]

/-- Rho-step rotation offsets for the row `y = 2`. -/
def rhoRow2 : List Nat := [3, 10, 43, 25, 39]

/-- Rho-step rotation offsets for the row `y = 3`. -/
def rhoRow3 : List Nat := [41, 45, 15, 21, 8]

/-- Rho-step rotation offsets for the row `y = 4`. -/
def rhoRow4 : List Nat := [18, 2, 61, 56, 14]

/-- Rho-step rotation offsets, indexed by the flat lane index `x + 5 * y`. -/
def rhoOffsets : List Nat :=
  rhoRow0 ++ rhoRow1 ++ rhoRow2 ++ rhoRow3 ++ rhoRow4

/-- Theta step of keccak-f[1600]; the state is 25 lanes, lane `(x, y)` at
flat index `x + 5 * y`. -/
def keccakTheta (a : List Nat) : List Nat :=
  let c := (List.range 5).map fun x =>
    a.getD x 0 ^^^ a.getD (x + 5) 0 ^^^ a.getD (x + 10) 0 ^^^
      a.getD (x + 15) 0 ^^^ a.getD (x + 20) 0
  let d := (List.range 5).map fun x =>
    c.getD ((x + 4) % 5) 0 ^^^ rotl64 (c.getD ((x + 1) % 5) 0) 1
  (List.range 25).map fun i => a.getD i 0 ^^^ d.getD (i % 5) 0

/-- Combined rho and pi steps: lane `(x, y)` rotated by its offset moves to
`(y, (2x + 3y) mod 5)`; below each destination pulls from its source. -/
def keccakRhoPi (a : List Nat) : List Nat :=
  (List.range 25).map fun j =>
    let bigX := j % 5
    let bigY := j / 5
    let x := (bigX + 3 * bigY) % 5
    let y := bigX
    rotl64 (a.getD (x + 5 * y) 0) (rhoOffsets.getD (x + 5 * y) 0)

/-- Chi step: `a[x,y] := a[x,y] xor ((not a[x+1,y]) and a[x+2,y])`. -/
def keccakChi (b : List Nat) : List Nat :=
  (List.range 25).map fun j =>
    let x := j % 5
    let y := j / 5
    b.getD j 0 ^^^
      (((b.getD ((x + 1) % 5 + 5 * y) 0) ^^^ 18446744073709551615) &&&
        b.getD ((x + 2) % 5 + 5 * y) 0)

/-- Iota step: xor the round constant into lane 0. -/
def keccakIota (rc : Nat) (a : List Nat) : List Nat :=
  match a with
  | [] => []
  | l0 :: rest => (l0 ^^^ rc) :: rest

/-- The keccak-f[1600] permutation: 24 rounds. -/
def keccakF (st : List Nat) : List Nat :=
  keccakRC.foldl (fun s rc => keccakIota rc (keccakChi (keccakRhoPi (keccakTheta s)))) st

/-- Little-endian interpretation of a byte list as one lane. -/
def bytesToLane (bs : List Nat) : Nat :=
  bs.foldr (fun b acc => b + 256 * acc) 0

/-- The 8 little-endian bytes of a lane. -/
def laneBytes (n : Nat) : List Nat :=
  (List.range 8).map fun i => (n >>> (8 * i)) &&& 255

/-- Xor one 136-byte rate block into the first 17 lanes of the state. -/
def xorBlock (st block : List Nat) : List Nat :=
  (List.range 25).map fun i =>
    if i < 17 then st.getD i 0 ^^^ bytesToLane ((block.drop (8 * i)).take 8)
    else st.getD i 0

/-- Absorb `fuel` rate blocks from `bytes` into the state. -/
def absorbBlocks : Nat → List Nat → List Nat → List Nat
  | 0, st, _ => st
  | fuel + 1, st, bytes =>
    absorbBlocks fuel (keccakF (xorBlock st (bytes.take 136))) (bytes.drop 136)

/-- Keccak multi-rate padding `10*1` for rate 136. -/
def padSuffix (len : Nat) : List Nat :=
  let r := 136 - len % 136
  if r == 1 then [0x81] else 0x01 :: (List.replicate (r - 2) 0 ++ [0x80])

/-- Keccak-256 (original keccak padding, as used by Ethereum) of a byte
list; returns the 32 digest bytes. -/
def keccak256 (msg : List Nat) : List Nat :=
  let padded := msg ++ padSuffix msg.length
  let final := absorbBlocks (padded.length / 136) (List.replicate 25 0) padded
  ((List.range 4).map fun i => laneBytes (final.getD i 0)).flatten

/-- The 64 hex digits (nibble values, high nibble of each byte first) of the
keccak-256 digest — the form `to_checksum_address` reads positionally. -/
def keccakNibbles (msg : List Nat) : List Nat :=
  ((keccak256 msg).map fun b => [b / 16, b % 16]).flatten

/-!
## Address validator

`check_ethereum_address` (`prompt_parser.py` lines 19–27) returns its input
when `Web3.isChecksumAddress` holds and raises
`argparse.ArgumentTypeError(f"{address} is not a valid checksummed ethereum
address")` otherwise. `Web3.isChecksumAddress` is `eth_utils`'s
`is_checksum_address`: the string must match `(0x)?[0-9a-f]{40}` after
lowercasing, and must equal `to_checksum_address` of itself, which prefixes
`0x` and uppercases exactly the hex letters whose corresponding keccak
nibble is at least 8.

Strings are embedded as their lists of character codes
(`String.data.map Char.toNat`); `lower`/`upper` are Python's `str.lower` /
`str.upper` restricted to ASCII, which is extensionally faithful here
because no non-ASCII character lowercases into `[0-9a-fx]`.
-/

/-- Character codes of a string. -/
def strCodes (s : String) : List Nat := s.data.map Char.toNat

/-- ASCII lowercasing of one character code (Python `str.lower`). -/
def lowerCode (n : Nat) : Nat := if 65 ≤ n && n ≤ 90 then n + 32 else n

/-- ASCII uppercasing of one character code (Python `str.upper`). -/
def upperCode (n : Nat) : Nat := if 97 ≤ n && n ≤ 122 then n - 32 else n

/-- Lowercase hex digit: `[0-9a-f]`. -/
def isLowerHexCode (n : Nat) : Bool := (48 ≤ n && n ≤ 57) || (97 ≤ n && n ≤ 102)

/-- Hex digit of either case: `[0-9a-fA-F]`. -/
def isHexCode (n : Nat) : Bool :=
  (48 ≤ n && n ≤ 57) || (97 ≤ n && n ≤ 102) || (65 ≤ n && n ≤ 70)

/-- `eth_utils.remove_0x_prefix`: drop a literal leading `0x`
(codes 48, 120). -/
def remove0x (l : List Nat) : List Nat :=
  match l with
  | c1 :: c2 :: r => if c1 == 48 && c2 == 120 then r else l
  | _ => l

/-- `eth_utils.is_hex_address`: the lowercased string fully matches
`(0x)?[0-9a-f]{40}`. -/
def isHexAddressCodes (l0 : List Nat) : Bool :=
  let l := l0.map lowerCode
  (match l with
   | c1 :: c2 :: rest =>
     c1 == 48 && c2 == 120 && rest.length == 40 && rest.all isLowerHexCode
   | _ => false)
  || (l.length == 40 && l.all isLowerHexCode)

/-- `eth_utils.to_checksum_address`: lowercase, strip `0x`, hash the 40-byte
hex body with keccak-256, and uppercase each character whose hash nibble is
at least 8; re-prefix `0x`. -/
def toChecksumAddressCodes (l0 : List Nat) : List Nat :=
  let norm := remove0x (l0.map lowerCode)
  let h := keccakNibbles norm
  48 :: 120 :: List.zipWith (fun c n => if n < 8 then c else upperCode c) norm h

/-- `eth_utils.is_checksum_address`, i.e. `Web3.isChecksumAddress`: a hex
address that equals its own checksum encoding. -/
def isChecksumAddressCodes (l : List Nat) : Bool :=
  isHexAddressCodes l && l == toChecksumAddressCodes l

/-- The spec's error taxonomy for `resolve` (§4.2): unknown command name,
argument-count/integer failures, and address-format failures (the
`formatError` payload is the offending token). -/
inductive ResolveError where
  | unknownCommand (name : String)
  | argumentError (message : String)
  | formatError (token : String)
deriving DecidableEq, Repr

/-- Embedding of `check_ethereum_address` (`prompt_parser.py` 19–27):
returns the string unchanged when `Web3.isChecksumAddress` accepts it,
otherwise raises `ArgumentTypeError` — modelled as a `FormatError` carrying
the offending string. -/
def check_ethereum_address (s : String) : Except ResolveError String :=
  if isChecksumAddressCodes (strCodes s) then .ok s
  else .error (.formatError s)

/-- Written from the spec's words (§4.1, §8, glossary), independently of the
source's re-encode-and-compare route: a correctly checksum-cased 20-byte hex
address is `0x` followed by exactly 40 hex digits, each of whose case is the
one selected by the corresponding keccak nibble of the lowercased body
(lowercase below 8, uppercase from 8 on). -/
def specChecksummedAddressCodes (l : List Nat) : Bool :=
  match l with
  | c1 :: c2 :: body =>
    c1 == 48 && c2 == 120 && body.length == 40 && body.all isHexCode &&
      (List.zip body (keccakNibbles (body.map lowerCode))).all
        (fun p => p.1 == (if p.2 < 8 then lowerCode p.1 else upperCode p.1))
  | _ => false

/-- String-level form of `specChecksummedAddressCodes`. -/
def specChecksummedAddress (s : String) : Bool :=
  specChecksummedAddressCodes (strCodes s)

/-!
## Python `int()`

Integer-typed arguments are converted with `type=int`. For a base-10
string, Python's `int()` strips surrounding whitespace, accepts one
optional sign, then a nonempty digit sequence in which single underscores
may separate digits (PEP 515).

The embedding below is the ASCII fragment of `int()`, and on ASCII strings
it is exact (its acceptance and values agree with CPython's there,
including the control characters `int()` does not strip and every
underscore/sign/whitespace corner). On top of that fragment, real `int()`
first transforms non-ASCII input: any Unicode decimal digit (category Nd,
e.g. Arabic-Indic or fullwidth digits) is mapped to the corresponding
ASCII digit and non-ASCII Unicode whitespace to a space, so tokens with
such characters can also parse (e.g. `int` of the Arabic-Indic digits for
123 is 123). Tokens containing non-ASCII characters are therefore outside
this model: `pyInt` never accepts them (all codes it accepts are below
128), and claims drawing a negative conclusion from a `pyInt` rejection
are stated for ASCII tokens only.
-/

/-- The whitespace `int()` strips around an ASCII literal: space, tab, LF,
VT, FF, CR (codes 32, 9–13). -/
def pySpaceCode (n : Nat) : Bool :=
  n == 32 || n == 9 || n == 10 || n == 13 || n == 12 || n == 11

/-- ASCII decimal digit (the digits of the post-transform literal; real
`int()` reduces Unicode Nd digits to these before parsing). -/
def digitCode (n : Nat) : Bool := 48 ≤ n && n ≤ 57

/-- After an initial digit: further digits, optionally separated by single
underscores (code 95); a trailing or doubled underscore rejects. -/
def parseDigitsRest (acc : Nat) : List Nat → Option Nat
  | [] => some acc
  | c :: rest =>
    if c == 95 then
      match rest with
      | [] => none
      | d :: rest2 =>
        if digitCode d then parseDigitsRest (acc * 10 + (d - 48)) rest2 else none
    else if digitCode c then parseDigitsRest (acc * 10 + (c - 48)) rest
    else none

/-- A nonempty underscore-grouped digit sequence, starting with a digit. -/
def parseUnsignedPy : List Nat → Option Nat
  | [] => none
  | d :: rest => if digitCode d then parseDigitsRest (d - 48) rest else none

/-- Strip leading and trailing Python whitespace. -/
def trimPySpaces (l : List Nat) : List Nat :=
  ((l.dropWhile pySpaceCode).reverse.dropWhile pySpaceCode).reverse

/-- Python `int()` on a base-10 string of character codes: exact on ASCII
input; a list containing a code outside the accepted ASCII repertoire is
rejected here even when real `int()` would first transform it (see the
section comment). -/
def pyIntParse (l : List Nat) : Option Int :=
  match trimPySpaces l with
  | [] => none
  | c :: rest =>
    if c == 43 then (parseUnsignedPy rest).map (fun n => (n : Int))
    else if c == 45 then (parseUnsignedPy rest).map (fun n => -(n : Int))
    else (parseUnsignedPy (c :: rest)).map (fun n => (n : Int))

/-- Python `int()` on a string (ASCII fragment, exact there). -/
def pyInt (s : String) : Option Int := pyIntParse (strCodes s)

/-- The type of one positional argument. -/
inductive ArgKind where
  | rawString
  | ethAddress
  | integer
deriving DecidableEq, Repr

/-- Declared arity of one positional argument. -/
inductive Arity where
  | exactlyOne
  | oneOrMore
deriving DecidableEq, Repr

/-- One `add_argument` declaration. -/
structure ArgSpec where
  name : String
  kind : ArgKind
  arity : Arity
deriving DecidableEq, Repr

/-- One `add_parser` declaration: command name, ordered argument specs, and
the `SafeOperator` method its handler calls. -/
structure CmdSpec where
  name : String
  args : List ArgSpec
  opMethod : String
deriving DecidableEq, Repr

/-- One converted token: `str` for raw strings and validated addresses (the
validator returns the string itself), `int` for integers. -/
inductive ScalarValue where
  | str (s : String)
  | int (i : Int)
deriving DecidableEq, Repr

/-- A converted argument value: a scalar for an exactly-one slot, a list of
scalars for a `nargs="+"` slot. -/
inductive ArgValue where
  | scalar (v : ScalarValue)
  | list (vs : List ScalarValue)
deriving DecidableEq, Repr

/-- The parsed namespace for one command: the matched spec and the named
converted values in declaration order. -/
structure ParsedCommand where
  spec : CmdSpec
  values : List (String × ArgValue)
deriving DecidableEq, Repr

/-- Convert one token under one argument type, as argparse's `_get_value`
does: `str` passes through, `check_ethereum_address` validates (raising the
`FormatError`), `int` applies Python `int()` (a `ValueError` becomes an
argparse `ArgumentError`). -/
def convertToken (k : ArgKind) (t : String) : Except ResolveError ScalarValue :=
  match k with
  | .rawString => .ok (.str t)
  | .ethAddress => (check_ethereum_address t).map ScalarValue.str
  | .integer =>
    match pyInt t with
    | some n => .ok (.int n)
    | none => .error (.argumentError ("invalid int value: " ++ t))

/-- Convert a token list under one type, stopping at the first failure. -/
def convertAll (k : ArgKind) : List String → Except ResolveError (List ScalarValue)
  | [] => .ok []
  | t :: ts =>
    match convertToken k t with
    | .error e => .error e
    | .ok v =>
      match convertAll k ts with
      | .error e => .error e
      | .ok vs => .ok (v :: vs)

/-- Consume tokens against the argument specs left to right, converting as
consumed: an exactly-one slot takes one token, a one-or-more slot takes all
remaining tokens (at least one). Returns the named values, the unconsumed
tokens, and the specs left unmatched when tokens ran out. -/
def consumeArgs : List ArgSpec → List String →
    Except ResolveError (List (String × ArgValue) × List String × List ArgSpec)
  | [], ts => .ok ([], ts, [])
  | s :: rest, [] => .ok ([], [], s :: rest)
  | s :: rest, t :: ts =>
    match s.arity with
    | .exactlyOne =>
      match convertToken s.kind t with
      | .error e => .error e
      | .ok v =>
        match consumeArgs rest ts with
        | .error e => .error e
        | .ok (vs, leftover, missing) => .ok ((s.name, .scalar v) :: vs, leftover, missing)
    | .oneOrMore =>
      match convertAll s.kind (t :: ts) with
      | .error e => .error e
      | .ok vs =>
        match consumeArgs rest [] with
        | .error e => .error e
        | .ok (vs2, leftover, missing) => .ok ((s.name, .list vs) :: vs2, leftover, missing)

/-- argparse's `the following arguments are required` message. -/
def requiredMessage (missing : List ArgSpec) : String :=
  "the following arguments are required: " ++
    String.intercalate ", " (missing.map (fun s => s.name))

/-- argparse's `unrecognized arguments` message. -/
def unrecognizedMessage (leftover : List String) : String :=
  "unrecognized arguments: " ++ String.intercalate " " leftover

/-- Parse the argument tokens of one already-selected command: consume and
convert, then report missing required slots, then unconsumed extras. -/
def resolveCmd (spec : CmdSpec) (args : List String) :
    Except ResolveError ParsedCommand :=
  match consumeArgs spec.args args with
  | .error e => .error e
  | .ok (vals, leftover, missing) =>
    if missing.isEmpty then
      if leftover.isEmpty then .ok ⟨spec, vals⟩
      else .error (.argumentError (unrecognizedMessage leftover))
    else .error (.argumentError (requiredMessage missing))

/-- Shorthand for an exactly-one address argument. -/
def addrArg (nm : String) : ArgSpec := ⟨nm, .ethAddress, .exactlyOne⟩

/-- Shorthand for an exactly-one integer argument. -/
def intArg (nm : String) : ArgSpec := ⟨nm, .integer, .exactlyOne⟩

/-- The registry built by `get_prompt_parser`, in source order: each
`add_parser` call with its `add_argument` declarations and the operator
method invoked by the handler bound via `set_defaults`. -/
def registry : List CmdSpec :=
  [⟨"show_cli_owners", [], "show_cli_owners"⟩,
   ⟨"load_cli_owners", [⟨"keys", .rawString, .oneOrMore⟩], "load_cli_owners"⟩,
   ⟨"unload_cli_owners", [⟨"addresses", .ethAddress, .oneOrMore⟩], "unload_cli_owners"⟩,
   ⟨"change_threshold", [intArg "threshold"], "change_threshold"⟩,
   ⟨"add_owner", [addrArg "address"], "add_owner"⟩,
   ⟨"remove_owner", [addrArg "address"], "remove_owner"⟩,
   ⟨"change_fallback_handler", [addrArg "address"], "change_fallback_handler"⟩,
   ⟨"change_master_copy", [addrArg "address"], "change_master_copy"⟩,
   ⟨"update", [], "update_version"⟩,
   ⟨"send_ether", [addrArg "address", intArg "value"], "send_ether"⟩,
   ⟨"send_erc20", [addrArg "address", addrArg "token_address", intArg "value"], "send_erc20"⟩,
   ⟨"send_erc721", [addrArg "address", addrArg "token_address", intArg "token_id"], "send_erc721"⟩,
   ⟨"get_threshold", [], "get_threshold"⟩,
   ⟨"get_nonce", [], "get_nonce"⟩,
   ⟨"get_owners", [], "get_owners"⟩,
   ⟨"enable_module", [addrArg "address"], "enable_module"⟩,
   ⟨"disable_module", [addrArg "address"], "disable_module"⟩,
   ⟨"info", [], "print_info"⟩,
   ⟨"refresh", [], "refresh_safe_cli_info"⟩,
   ⟨"balances", [], "get_balances"⟩,
   ⟨"history", [], "get_transaction_history"⟩]

/-- Look the command token up among the subparser names. -/
def lookupCmd (name : String) : Option CmdSpec :=
  registry.find? (fun c => c.name == name)

/-- `resolve`: select the subparser by the command token (an absent name is
an `UnknownCommandError`, raised before any argument is examined), then
parse the argument tokens. -/
def resolve (cmd : String) (args : List String) :
    Except ResolveError ParsedCommand :=
  match lookupCmd cmd with
  | none => .error (.unknownCommand cmd)
  | some spec => resolveCmd spec args

/-- One call into the external `SafeOperator`: method name and the named
argument values passed. -/
abbrev OpCall := String × List (String × ArgValue)

/-- A stub operator: for each call, either complete silently (`none`) or
raise an exception (`some e`). -/
abbrev Operator := OpCall → Option PyExc

/-- Decidable equality for `Except` results (not provided by the core
library), so that concrete resolution facts can be settled by `decide`. -/
def exceptDecEq {α β : Type} [DecidableEq α] [DecidableEq β] :
    (a b : Except α β) → Decidable (a = b)
  | .error a, .error b =>
    if h : a = b then .isTrue (by rw [h])
    else .isFalse (by intro hh; cases hh; exact h rfl)
  | .error _, .ok _ => .isFalse (by intro h; cases h)
  | .ok _, .error _ => .isFalse (by intro h; cases h)
  | .ok a, .ok b =>
    if h : a = b then .isTrue (by rw [h])
    else .isFalse (by intro hh; cases hh; exact h rfl)

instance {α β : Type} [DecidableEq α] [DecidableEq β] : DecidableEq (Except α β) :=
  exceptDecEq

/-- Everything observable about processing one input line: the resolution
outcome, the wrapped-handler invocations performed (each invocation makes
exactly one operator call), and the wrapper outcome when a handler ran. -/
structure LineResult where
  resolved : Except ResolveError ParsedCommand
  invocations : List OpCall
  wrapperResult : Option WrapperOutcome
deriving DecidableEq, Repr

/-- The dispatch cycle for one line, modelled from the spec (§2.4: the
dispatch loop itself lives outside this file's source): resolve the tokens;
on failure no handler runs; on success invoke the wrapped handler, which
calls the operator method with the parsed values and filters the outcome
through `safe_exception`. -/
def runLine (op : Operator) (cmd : String) (args : List String) : LineResult :=
  match resolve cmd args with
  | .error e => ⟨.error e, [], none⟩
  | .ok pc =>
    ⟨.ok pc, [(pc.spec.opMethod, pc.values)],
      some (safeExceptionRun (op (pc.spec.opMethod, pc.values)))⟩

/-!
## Helper predicates used to state the claims
-/

/-- An operator stub that always succeeds. -/
def opAlwaysOk : Operator := fun _ => none

set_option maxRecDepth 100000

/-!
## Theorems
-/

/-- C1: For each of the twelve ErrorKinds of §7, a stub operator raising
that failure (with its payload, where the kind carries one) makes the
wrapper emit exactly the corresponding populated message template and
nothing else. The spec-level `InsufficientBalance` kind is realised by both
`NotEnoughEtherToSend` and `NotEnoughTokenToSend`, listed separately. -/
theorem claim_C1 (a : String) :
    safeExceptionRun (some ⟨.baseAPI, [a]⟩) =
      .returned ["<b><ansired>" ++ a ++ "</ansired></b>"]
  ∧ safeExceptionRun (some ⟨.notEnoughSignatures, [a]⟩) =
      .returned ["<ansired>Cannot find enough owners to sign. " ++ a ++ " missing</ansired>"]
  ∧ safeExceptionRun (some ⟨.senderRequired, []⟩) =
      .returned ["<ansired>Please load a default sender</ansired>"]
  ∧ safeExceptionRun (some ⟨.existingOwner, [a]⟩) =
      .returned ["<ansired>Owner " ++ a ++ " is already an owner of the Safe</ansired>"]
  ∧ safeExceptionRun (some ⟨.nonExistingOwner, [a]⟩) =
      .returned ["<ansired>Owner " ++ a ++ " is not an owner of the Safe</ansired>"]
  ∧ safeExceptionRun (some ⟨.thresholdLimit, []⟩) =
      .returned ["<ansired>Having less owners than threshold is not allowed</ansired>"]
  ∧ safeExceptionRun (some ⟨.sameFallbackHandler, [a]⟩) =
      .returned ["<ansired>Fallback handler " ++ a ++ " is the current one</ansired>"]
  ∧ safeExceptionRun (some ⟨.fallbackHandlerNotSupported, []⟩) =
      .returned ["<ansired>Fallback handler is not supported for your Safe, you need to <b>update</b> first</ansired>"]
  ∧ safeExceptionRun (some ⟨.sameMasterCopy, [a]⟩) =
      .returned ["<ansired>Master Copy " ++ a ++ " is the current one</ansired>"]
  ∧ safeExceptionRun (some ⟨.invalidMasterCopy, [a]⟩) =
      .returned ["<ansired>Master Copy " ++ a ++ " is not valid</ansired>"]
  ∧ safeExceptionRun (some ⟨.safeAlreadyUpdated, []⟩) =
      .returned ["<ansired>Safe is already updated</ansired>"]
  ∧ safeExceptionRun (some ⟨.notEnoughEtherToSend, [a]⟩) =
      .returned ["<ansired>Cannot find enough to send. Current balance is " ++ a ++ "</ansired>"]
  ∧ safeExceptionRun (some ⟨.notEnoughTokenToSend, [a]⟩) =
      .returned ["<ansired>Cannot find enough to send. Current balance is " ++ a ++ "</ansired>"] :=
  ⟨rfl, rfl, rfl, rfl, rfl, rfl, rfl, rfl, rfl, rfl, rfl, rfl, rfl⟩

/-- C2: A failure outside the closed domain set is not translated: it
propagates out of the wrapped handler unchanged, whatever its class name
and payload. -/
theorem claim_C2 (className : String) (payload : List String) :
    safeExceptionRun (some ⟨.otherExc className, payload⟩) =
      .propagated ⟨.otherExc className, payload⟩ :=
  rfl

/-- C7: Every ErrorKind whose translation reads `e.args[0]` without the
guard `if e.args` — InsufficientSignatures, OwnerAlreadyPresent,
OwnerNotPresent, FallbackHandlerUnchanged, MasterCopyUnchanged,
MasterCopyInvalid, and InsufficientBalance through either exception class —
makes the wrapper itself fail (an `IndexError` from the f-string) instead
of emitting a classified message when raised with an empty payload. -/
theorem claim_C7 :
    safeExceptionRun (some ⟨.notEnoughSignatures, []⟩) = .wrapperFailed
  ∧ safeExceptionRun (some ⟨.existingOwner, []⟩) = .wrapperFailed
  ∧ safeExceptionRun (some ⟨.nonExistingOwner, []⟩) = .wrapperFailed
  ∧ safeExceptionRun (some ⟨.sameFallbackHandler, []⟩) = .wrapperFailed
  ∧ safeExceptionRun (some ⟨.sameMasterCopy, []⟩) = .wrapperFailed
  ∧ safeExceptionRun (some ⟨.invalidMasterCopy, []⟩) = .wrapperFailed
  ∧ safeExceptionRun (some ⟨.notEnoughEtherToSend, []⟩) = .wrapperFailed
  ∧ safeExceptionRun (some ⟨.notEnoughTokenToSend, []⟩) = .wrapperFailed :=
  ⟨rfl, rfl, rfl, rfl, rfl, rfl, rfl, rfl⟩

/-- C10: A `BaseAPIException` raised with an empty `args` tuple is caught
by the first `except` clause, whose `if e.args:` guard fails, so the
wrapper prints nothing and returns normally: the failure is silently
swallowed, indistinguishable from success. -/
theorem claim_C10 :
    safeExceptionRun (some ⟨.baseAPI, []⟩) = .returned []
  ∧ safeExceptionRun (some ⟨.baseAPI, []⟩) = safeExceptionRun none :=
  ⟨rfl, rfl⟩

/-- C8: Resolution is a pure function of the command token, argument
tokens, and the static registry: resolving the same line twice gives
structurally equal results, the resolution component of a full line run
does not depend on the operator at all, and a line that fails to resolve
performs no operator call. -/
theorem claim_C8 (op op2 : Operator) (cmd : String) (args : List String) :
    resolve cmd args = resolve cmd args
  ∧ (runLine op cmd args).resolved = (runLine op2 cmd args).resolved
  ∧ (runLine op cmd args).resolved = resolve cmd args
  ∧ (∀ e, resolve cmd args = .error e → (runLine op cmd args).invocations = []) := by
  have hres : ∀ o : Operator, (runLine o cmd args).resolved = resolve cmd args := by
    intro o
    cases hr : resolve cmd args <;> simp [runLine, hr]
  refine ⟨rfl, (hres op).trans (hres op2).symm, hres op, ?_⟩
  intro e he
  simp [runLine, he]

/-- Witness for C8 on a concrete failing line. -/
theorem claim_C8_witness :
    resolve "add_owner" [] =
      .error (.argumentError "the following arguments are required: address")
  ∧ (runLine opAlwaysOk "add_owner" []).invocations = [] :=
  ⟨by decide,
   (claim_C8 opAlwaysOk opAlwaysOk "add_owner" []).2.2.2
     (.argumentError "the following arguments are required: address") (by decide)⟩

/-- A lane always serializes to 8 bytes. -/
theorem laneBytes_length (n : Nat) : (laneBytes n).length = 8 := by
  simp [laneBytes]

/-- The digest is always 32 bytes, whatever the message. -/
theorem keccak256_length (msg : List Nat) : (keccak256 msg).length = 32 := by
  rw [keccak256]
  rw [show List.range 4 = [0, 1, 2, 3] from rfl]
  simp [laneBytes_length]

/-- The digest always provides 64 hex nibbles. -/
theorem keccakNibbles_length (msg : List Nat) :
    (keccakNibbles msg).length = 64 := by
  rw [keccakNibbles]
  rw [List.length_flatten, List.map_map]
  have : (List.length ∘ fun b => [b / 16, b % 16]) = fun _ : Nat => 2 := by
    funext b; rfl
  rw [this, List.map_const', List.sum_replicate, keccak256_length]
  norm_num

/-- ASCII lowercasing turns a hex digit of either case into a lowercase hex
digit, and nothing else into one. -/
theorem isLowerHexCode_lowerCode (n : Nat) :
    isLowerHexCode (lowerCode n) = isHexCode n := by
  rw [Bool.eq_iff_iff]
  unfold isLowerHexCode isHexCode lowerCode
  split <;>
    simp only [Bool.or_eq_true, Bool.and_eq_true, decide_eq_true_eq] at * <;>
    omega

/-- Uppercasing absorbs a prior lowercasing. -/
theorem upperCode_lowerCode (n : Nat) :
    upperCode (lowerCode n) = upperCode n := by
  unfold upperCode lowerCode
  split_ifs <;> first
    | rfl
    | (simp_all only [Bool.and_eq_true, decide_eq_true_eq]; omega)

/-- The source's route (string equals its own checksum re-encoding) agrees
with the spec's per-character casing condition, as long as the nibble list
is at least as long as the body. -/
theorem body_eq_zipWith_iff (bs ns : List Nat) (hlen : bs.length ≤ ns.length) :
    (bs = List.zipWith (fun c n => if n < 8 then c else upperCode c)
        (bs.map lowerCode) ns)
  ↔ (List.zip bs ns).all
      (fun p => p.1 == (if p.2 < 8 then lowerCode p.1 else upperCode p.1)) = true := by
  induction bs generalizing ns with
  | nil => simp
  | cons c cs ih =>
    cases ns with
    | nil => simp at hlen
    | cons n ns2 =>
      have hlen2 : cs.length ≤ ns2.length := by
        simpa using Nat.le_of_succ_le_succ (by simpa using hlen)
      simp only [List.map_cons, List.zipWith_cons_cons, List.zip_cons_cons,
        List.all_cons, Bool.and_eq_true, beq_iff_eq, List.cons.injEq]
      rw [ih ns2 hlen2, upperCode_lowerCode]

/-- The source's `is_checksum_address` (lowercased-hex shape plus equality
with the checksum re-encoding) coincides, on every code list, with the
spec's independent description of a correctly checksum-cased 20-byte hex
address. -/
theorem checksum_equiv (l : List Nat) :
    isChecksumAddressCodes l = specChecksummedAddressCodes l := by
  rw [Bool.eq_iff_iff]
  cases l with
  | nil =>
    simp [isChecksumAddressCodes, isHexAddressCodes, specChecksummedAddressCodes]
  | cons c1 tail =>
    cases tail with
    | nil =>
      simp [isChecksumAddressCodes, isHexAddressCodes,
        specChecksummedAddressCodes, toChecksumAddressCodes, remove0x]
    | cons c2 body =>
      by_cases h0x : c1 = 48 ∧ c2 = 120
      · obtain ⟨rfl, rfl⟩ := h0x
        have hmap : (48 :: 120 :: body).map lowerCode =
            48 :: 120 :: body.map lowerCode := rfl
        have htc : toChecksumAddressCodes (48 :: 120 :: body) =
            48 :: 120 :: List.zipWith (fun c n => if n < 8 then c else upperCode c)
              (body.map lowerCode) (keccakNibbles (body.map lowerCode)) := by
          rw [toChecksumAddressCodes, hmap]
          rfl
        have h120 : isLowerHexCode 120 = false := rfl
        have hhexiff : isHexAddressCodes (48 :: 120 :: body) = true ↔
            (body.length = 40 ∧ body.all isHexCode = true) := by
          rw [isHexAddressCodes]
          simp only [hmap]
          simp [List.all_cons, h120, List.all_map, Function.comp,
            isLowerHexCode_lowerCode, Bool.and_eq_true, beq_iff_eq]
        by_cases hlen40 : body.length = 40
        · have hlen : body.length ≤ (keccakNibbles (body.map lowerCode)).length := by
            rw [keccakNibbles_length, hlen40]; omega
          simp only [isChecksumAddressCodes, Bool.and_eq_true, beq_iff_eq, htc,
            hhexiff, specChecksummedAddressCodes, List.cons.injEq]
          rw [body_eq_zipWith_iff _ _ hlen]
          tauto
        · apply iff_of_false
          · intro hL
            simp only [isChecksumAddressCodes, Bool.and_eq_true, beq_iff_eq] at hL
            exact hlen40 (hhexiff.mp hL.1).1
          · intro hR
            simp only [specChecksummedAddressCodes, Bool.and_eq_true,
              beq_iff_eq] at hR
            exact hlen40 hR.1.1.2
      · apply iff_of_false
        · intro hL
          simp only [isChecksumAddressCodes, Bool.and_eq_true, beq_iff_eq] at hL
          obtain ⟨-, heq⟩ := hL
          rw [toChecksumAddressCodes] at heq
          injection heq with h1 h2
          injection h2 with h2 h3
          exact h0x ⟨h1, h2⟩
        · intro hR
          simp only [specChecksummedAddressCodes, Bool.and_eq_true,
            beq_iff_eq] at hR
          exact h0x ⟨hR.1.1.1.1, hR.1.1.1.2⟩

/-- C3: the address validator accepts a string and returns it unchanged
exactly when it is a correctly checksum-cased 20-byte hex address as the
spec describes it, and fails with a `FormatError` carrying the offending
string on everything else. -/
theorem claim_C3 (s : String) :
    ((check_ethereum_address s = .ok s) ↔ specChecksummedAddress s = true)
  ∧ (∀ r, check_ethereum_address s = .ok r → r = s)
  ∧ (specChecksummedAddress s = false →
      check_ethereum_address s = .error (.formatError s)) := by
  have hequiv : isChecksumAddressCodes (strCodes s) = specChecksummedAddress s :=
    checksum_equiv (strCodes s)
  cases hc : isChecksumAddressCodes (strCodes s) with
  | true =>
    have hspec : specChecksummedAddress s = true := hequiv.symm.trans hc
    have hok : check_ethereum_address s = .ok s := by
      simp [check_ethereum_address, hc]
    refine ⟨⟨fun _ => hspec, fun _ => hok⟩, ?_, ?_⟩
    · intro r hr
      rw [hok] at hr
      injection hr with h
      exact h.symm
    · intro hfalse
      rw [hspec] at hfalse
      cases hfalse
  | false =>
    have hspec : specChecksummedAddress s = false := hequiv.symm.trans hc
    have herr : check_ethereum_address s = .error (.formatError s) := by
      simp [check_ethereum_address, hc]
    refine ⟨⟨?_, ?_⟩, ?_, fun _ => herr⟩
    · intro h
      rw [herr] at h
      cases h
    · intro h
      rw [hspec] at h
      cases h
    · intro r hr
      rw [herr] at hr
      cases hr

/-- Witness for C3 on the spec's own example `notanaddress`. -/
theorem claim_C3_witness :
    specChecksummedAddress "notanaddress" = false
  ∧ check_ethereum_address "notanaddress" =
      .error (.formatError "notanaddress") :=
  ⟨by decide, (claim_C3 "notanaddress").2.2 (by decide)⟩

/-- Positive sanity check of the whole checksum pipeline against the
EIP-55 reference vector: the canonical mixed-case form validates, under
both the source's route and the spec's description, while the all-lowercase
form of the same account is rejected. -/
theorem eip55_reference_vector :
    check_ethereum_address "0x5aAeb6053F3E94C9b9A09f33669435E7Ef1BeAed" =
      .ok "0x5aAeb6053F3E94C9b9A09f33669435E7Ef1BeAed"
  ∧ specChecksummedAddress "0x5aAeb6053F3E94C9b9A09f33669435E7Ef1BeAed" = true
  ∧ specChecksummedAddress "0x5aaeb6053f3e94c9b9a09f33669435e7ef1beaed" = false := by
  refine ⟨by decide, by decide, by decide⟩

end SafeCli
